import Mathlib

/-!
Shallow embedding of the orchestration core of `src/App.jsx` (a React
workspace for a natural-language-to-SQL service) and proofs about the
claims of its specification.

Conventions of the embedding:
* React `useState` cells become fields of explicit state structures;
  a `setX(v)` call becomes a functional update of the field.
* An asynchronous operation (fetch / XMLHttpRequest) is modelled as a
  function from the current state and the eventual outcome of the network
  exchange to the state after the continuation has run; whether a network
  request was issued at all is returned as an explicit flag.
* `setTimeout` becomes an entry in an explicit list of pending timers;
  the event loop firing a timer is a separate transition function.
* JavaScript strings are Lean `String`s, except in the CSV development
  where cell text is `List Char` so that the renderer and the reader can
  be handled by structural recursion.
-/

namespace NLQS

/-! ## JavaScript string methods

The embedding gives the three string methods the source uses their own
structural definitions over `String.data` (character lists), so that every
use of the model reduces by computation. -/

/-- `String.prototype.toLowerCase`. -/
def jsToLower (s : String) : String :=
  ⟨s.data.map Char.toLower⟩

/-- `String.prototype.endsWith`: the last characters of `s` are exactly
`suffix`. -/
def jsEndsWith (s suffix : String) : Bool :=
  s.data.reverse.take suffix.data.length == suffix.data.reverse

/-- `String.prototype.trim`: strip leading and trailing whitespace. -/
def jsTrim (s : String) : String :=
  ⟨((s.data.dropWhile Char.isWhitespace).reverse.dropWhile Char.isWhitespace).reverse⟩

/-! ## Notifications (`useToasts`, src/App.jsx lines 52-62) -/

/-- A toast as built by `add` in `useToasts`: an id, a type
(`success` by default, `error` when given), a title and an optional
message. -/
structure Toast where
  id : String
  kind : String
  title : String
  message : Option String
deriving DecidableEq, Repr

/-- The state owned by `useToasts`, together with the timers scheduled by
`setTimeout(() => remove(id), 6000)`.  A pending timer is the pair of the
toast id it will remove and its firing time. -/
structure ToastState where
  toasts : List Toast
  pendingTimers : List (String × Nat)
deriving DecidableEq, Repr

/-- `add` of `useToasts`: appends the toast and schedules an automatic
`remove(id)` 6000 ms from now.  (`id` is produced by `Math.random` in the
source; it is a parameter here.) -/
def addToast (s : ToastState) (id kind title : String) (message : Option String)
    (now : Nat) : ToastState :=
  { toasts := s.toasts ++ [{ id := id, kind := kind, title := title, message := message }],
    pendingTimers := s.pendingTimers ++ [(id, now + 6000)] }

/-- `remove` of `useToasts`: `setToasts(prev => prev.filter(t => t.id !== id))`.
No `clearTimeout` exists in the source, so the pending timers are untouched. -/
def removeToast (s : ToastState) (id : String) : ToastState :=
  { s with toasts := s.toasts.filter (fun t => t.id != id) }

/-- The event loop firing the timer scheduled by `add`: the timer is
consumed and its callback `remove(id)` runs. -/
def fireToastTimer (s : ToastState) (id : String) : ToastState :=
  { toasts := (removeToast s id).toasts,
    pendingTimers := s.pendingTimers.filter (fun p => p.1 != id) }

/-! ## File upload (`FileUpload.handleFiles`, src/App.jsx lines 103-145) -/

/-- The two fields of a browser `File` object that `handleFiles` reads. -/
structure JsFile where
  mimeType : String
  name : String
deriving DecidableEq, Repr

/-- The `allowed` MIME list of `handleFiles`. -/
def allowedMimes : List String :=
  ["text/csv", "application/vnd.ms-excel",
   "application/vnd.openxmlformats-officedocument.spreadsheetml.sheet"]

/-- A notification as passed to `toasts.add` (no id yet). -/
structure Notice where
  kind : String
  title : String
  message : Option String
deriving DecidableEq, Repr

/-- The observable outcome of the synchronous part of `handleFiles`:
whether an `XMLHttpRequest` was opened (and under which form field the
file was appended), and which toasts were raised before any network
activity. -/
structure HandleFilesStart where
  requestSent : Bool
  formField : Option String
  toastsAdded : List Notice
deriving DecidableEq, Repr

/-- The type check and dispatch of `handleFiles` (lines 103-115): with no
file it returns; with a file whose MIME type is not allowed and whose
lowercased name ends in none of `.csv`, `.xlsx`, `.xls` it raises the
`Unsupported file` error toast and returns; otherwise it appends the file
to a `FormData` under the field `file` and sends the request. -/
def handleFiles (files : List JsFile) : HandleFilesStart :=
  match files.head? with
  | none => { requestSent := false, formField := none, toastsAdded := [] }
  | some file =>
    if !(allowedMimes.contains file.mimeType)
        && !(jsEndsWith (jsToLower file.name) ".csv")
        && !(jsEndsWith (jsToLower file.name) ".xlsx")
        && !(jsEndsWith (jsToLower file.name) ".xls") then
      { requestSent := false, formField := none,
        toastsAdded := [{ kind := "error", title := "Unsupported file",
                          message := some "Please upload CSV or Excel files." }] }
    else
      { requestSent := true, formField := some "file", toastsAdded := [] }

/-- The upload response body once `JSON.parse` succeeded, with the two
fields `xhr.onload` reads; either may be absent. -/
structure UploadResponse where
  table_name : Option String
  row_count : Option Nat
deriving DecidableEq, Repr

/-- The success-toast message of `xhr.onload`:
`res?.table_name ? table_name • row_count ?? ? rows : File uploaded`
(JavaScript truthiness makes an empty `table_name` fall back too). -/
def uploadMessage (res : UploadResponse) : String :=
  match res.table_name with
  | some n =>
    if n = "" then "File uploaded"
    else n ++ " • " ++ (match res.row_count with
      | some k => toString k
      | none => "?") ++ " rows"
  | none => "File uploaded"

/-- Effects of the `xhr.onload` handler (lines 121-136). -/
structure OnloadEffects where
  uploading : Bool
  progress : Nat
  toastsAdded : List Notice
  onUploadedCalled : Bool
  refreshCalled : Bool
deriving DecidableEq, Repr

/-- `xhr.onload`: on a 2xx status it tries `JSON.parse(xhr.responseText)`
(`parsed = none` models a parse failure); only inside the `try` does it
raise the success toast and call `onUploaded` and `onTablesRefresh`.  A
parse failure raises the `Unexpected response` error toast, a non-2xx
status the `Upload failed` toast.  `setProgress(0)` runs in every branch. -/
def uploadOnload (status : Nat) (parsed : Option UploadResponse) : OnloadEffects :=
  if 200 ≤ status ∧ status < 300 then
    match parsed with
    | some res =>
      { uploading := false, progress := 0,
        toastsAdded := [{ kind := "success", title := "Upload complete",
                          message := some (uploadMessage res) }],
        onUploadedCalled := true, refreshCalled := true }
    | none =>
      { uploading := false, progress := 0,
        toastsAdded := [{ kind := "error", title := "Unexpected response",
                          message := some "Upload succeeded but response could not be parsed." }],
        onUploadedCalled := false, refreshCalled := false }
  else
    { uploading := false, progress := 0,
      toastsAdded := [{ kind := "error", title := "Upload failed",
                        message := some ("Status " ++ toString status) }],
      onUploadedCalled := false, refreshCalled := false }

/-! ## Table registry: schema fetches and deletion
(`fetchSchema` lines 400-412, selection effect lines 465-469,
`deleteTable` lines 414-428) -/

/-- A table as held in the sidebar: `fetchSchema` and `deleteTable` key on
its `id`. -/
structure TableRef where
  id : String
  name : String
deriving DecidableEq, Repr

/-- A schema, as cached by `setSchema`: the ordered column list of
name/type pairs. -/
abbrev SchemaData := List (String × String)

/-- The slice of `App` state that the selection effect and `fetchSchema`
touch.  `pendingSchemaFetches` lists the table ids of the outstanding
`GET /api/tables/:id` requests, oldest first. -/
structure SchemaState where
  selectedTable : Option TableRef
  schema : Option SchemaData
  pendingSchemaFetches : List String
deriving DecidableEq, Repr

/-- `setSelectedTable(t)` followed by the `useEffect` on `[selectedTable]`
(lines 465-469), which calls `fetchSchema(t.id)`: the selection changes and
a schema request for `t.id` goes out. -/
def selectTable (s : SchemaState) (t : TableRef) : SchemaState :=
  { s with selectedTable := some t,
           pendingSchemaFetches := s.pendingSchemaFetches ++ [t.id] }

/-- A successful schema response resolving for the `i`-th outstanding
fetch: `fetchSchema`'s continuation runs `setSchema(data)` unconditionally
(line 406) - the source carries no request token and performs no
comparison with the current selection. -/
def schemaFetchResolves (s : SchemaState) (i : Nat) (data : SchemaData) : SchemaState :=
  { s with schema := some data,
           pendingSchemaFetches := s.pendingSchemaFetches.eraseIdx i }

/-- The eventual network outcome of a single HTTP exchange. -/
inductive HttpOutcome where
  | ok
  | httpError (status : Nat)
  | networkError (message : String)
deriving DecidableEq, Repr

/-- The slice of `App` state that `deleteTable` touches. -/
structure DeleteState where
  selectedTable : Option TableRef
  schema : Option SchemaData
  toasts : List Notice
deriving DecidableEq, Repr

/-- Result of a `deleteTable` call: the final state, whether the DELETE
request was issued, and whether `refreshTables()` was called. -/
structure DeleteResult where
  state : DeleteState
  requestSent : Bool
  refreshCalled : Bool
deriving DecidableEq, Repr

/-- The guard `selectedTable && selectedTable.id === tbl.id` of
`deleteTable`. -/
def selectionMatches (sel : Option TableRef) (tbl : TableRef) : Bool :=
  match sel with
  | some s => s.id == tbl.id
  | none => false

/-- `deleteTable(tbl)` (lines 414-428): gated on `confirm(...)`; on a 2xx
answer it toasts `Table deleted`, awaits `refreshTables()`, and clears
selection and schema exactly when `selectedTable && selectedTable.id ===
tbl.id`; on failure it raises the `Failed to delete` toast and leaves the
state otherwise untouched. -/
def deleteTable (confirmed : Bool) (s : DeleteState) (tbl : TableRef)
    (outcome : HttpOutcome) : DeleteResult :=
  if !confirmed then
    { state := s, requestSent := false, refreshCalled := false }
  else
    match outcome with
    | .ok =>
      let s1 := { s with toasts := s.toasts ++
        [{ kind := "success", title := "Table deleted", message := none }] }
      if selectionMatches s1.selectedTable tbl then
        { state := { s1 with selectedTable := none, schema := none },
          requestSent := true, refreshCalled := true }
      else
        { state := s1, requestSent := true, refreshCalled := true }
    | .httpError status =>
      { state := { s with toasts := s.toasts ++
          [{ kind := "error", title := "Failed to delete",
             message := some ("Status " ++ toString status) }] },
        requestSent := true, refreshCalled := false }
    | .networkError m =>
      { state := { s with toasts := s.toasts ++
          [{ kind := "error", title := "Failed to delete", message := some m }] },
        requestSent := true, refreshCalled := false }

/-! ## Query runner and history (`runQuery` lines 430-452,
`handleKeySubmit` lines 454-459, history initializer lines 375-377) -/

/-- The parsed JSON body of a successful `POST /api/query`, kept atomic:
`runQuery` stores it wholesale with `setResult(data)` and never inspects
it. -/
structure QueryData where
  raw : String
deriving DecidableEq, Repr

/-- The localStorage key-value store, as an association list. -/
abbrev Store := List (String × String)

/-- `localStorage.setItem`. -/
def setItem (st : Store) (k v : String) : Store :=
  (k, v) :: st.filter (fun p => p.1 != k)

/-- `localStorage.getItem` (`none` models JavaScript `null`). -/
def getItem (st : Store) (k : String) : Option String :=
  (st.find? (fun p => p.1 == k)).map (fun p => p.2)

/-- One character of a JSON string literal, as `JSON.stringify` escapes
it (only the quote and backslash cases matter for history texts). -/
def jsonEscapeChar (c : Char) : List Char :=
  if c = '"' then ['\\', '"']
  else if c = '\\' then ['\\', '\\']
  else [c]

/-- A JSON string literal. -/
def jsonString (s : String) : String :=
  ⟨'"' :: (s.data.map jsonEscapeChar).flatten ++ ['"']⟩

/-- `JSON.stringify` of a history array (an array of strings). -/
def serializeHistory (h : List String) : String :=
  "[" ++ String.intercalate "," (h.map jsonString) ++ "]"

/-- The history update expression of `runQuery` (line 444):
`[query.trim(), ...history.filter(q => q !== query.trim())].slice(0, 10)`. -/
def insertHistory (t : String) (history : List String) : List String :=
  (t :: history.filter (fun q => q != t)).take 10

/-- The slice of `App` state that `runQuery` reads and writes. -/
structure QueryState where
  query : String
  running : Bool
  result : Option QueryData
  history : List String
  store : Store
  toasts : List Notice
deriving DecidableEq, Repr

/-- Outcome of the `POST /api/query` exchange. -/
inductive QueryOutcome where
  | ok (data : QueryData)
  | httpError (status : Nat)
  | networkError (message : String)
deriving DecidableEq, Repr

/-- Result of invoking `runQuery`: the state after the call (and, when a
request went out, after its continuation ran) plus whether a network
request was issued. -/
structure RunResult where
  state : QueryState
  requestSent : Bool
deriving DecidableEq, Repr

/-- `runQuery` (lines 430-452).  It returns early only when
`query.trim()` is empty - there is no check of `running`.  Otherwise it
sets `running`, clears `result` to null, and issues the request; on
success it stores the parsed data, toasts `Query completed`, updates the
history by `insertHistory` and persists it under `query_history`; on a
non-2xx or transport failure the thrown error is caught and the single
`Query failed` toast is raised (the cleared `result` stays null);
`finally` resets `running`. -/
def runQuery (s : QueryState) (outcome : QueryOutcome) : RunResult :=
  if jsTrim s.query = "" then
    { state := s, requestSent := false }
  else
    match outcome with
    | .ok data =>
      let t := jsTrim s.query
      let newHist := insertHistory t s.history
      { state := { s with
          running := false,
          result := some data,
          toasts := s.toasts ++
            [{ kind := "success", title := "Query completed", message := none }],
          history := newHist,
          store := setItem s.store "query_history" (serializeHistory newHist) },
        requestSent := true }
    | .httpError status =>
      { state := { s with
          running := false,
          result := none,
          toasts := s.toasts ++
            [{ kind := "error", title := "Query failed",
               message := some ("Status " ++ toString status) }] },
        requestSent := true }
    | .networkError m =>
      { state := { s with
          running := false,
          result := none,
          toasts := s.toasts ++
            [{ kind := "error", title := "Query failed", message := some m }] },
        requestSent := true }

/-- The two fields of the keyboard event `handleKeySubmit` reads. -/
structure KeyEvent where
  key : String
  shiftKey : Bool
deriving DecidableEq, Repr

/-- `handleKeySubmit` (lines 454-459): on Enter without Shift it prevents
the default and calls `runQuery()` - with no further guard. -/
def handleKeySubmit (e : KeyEvent) (s : QueryState) (outcome : QueryOutcome) : RunResult :=
  if e.key = "Enter" ∧ e.shiftKey = false then runQuery s outcome
  else { state := s, requestSent := false }

/-- The `disabled` condition of the run button (line 252):
`loading || !query.trim()`; the button is enabled in the opposite case. -/
def runButtonEnabled (running : Bool) (query : String) : Bool :=
  !(running || jsTrim query == "")

/-! ## Startup history load (`App` history initializer, lines 375-377) -/

/-- JSON values, for the result of `JSON.parse`. -/
inductive Json where
  | null
  | bool (b : Bool)
  | num (n : Int)
  | str (s : String)
  | arr (xs : List Json)
  | obj (fields : List (String × Json))

/-- The `useState` initializer of `history`:
`try JSON.parse(localStorage.getItem(query_history) || []) catch return []`.
`parse` is the `JSON.parse` oracle: `none` models a thrown `SyntaxError`,
caught by the surrounding `try`; a `getItem` result of `null` or of the
empty string (both falsy) falls back to the literal text of an empty
array. -/
def initHistory (stored : Option String) (parse : String → Option Json) : Json :=
  let text := match stored with
    | none => "[]"
    | some s => if s = "" then "[]" else s
  match parse text with
  | some v => v
  | none => Json.arr []

/-! ## CSV export (`Results.exportCsv`, src/App.jsx lines 275-289)

Cell text is `List Char` here.  A cell value is `Option (List Char)`:
`none` models a value for which `v == null` holds (JavaScript `null` or
`undefined`, including an absent property), `some s` a value whose
`String(v)` is `s`. -/

/-- The quoting test of `exportCsv`:
`s.includes(,) || s.includes(newline) || s.includes(quote)`. -/
def needsQuote (s : List Char) : Bool :=
  s.any (fun c => c = ',' || c = '\n' || c = '"')

/-- `s.replace(/"/g, doubled quote)`. -/
def escapeQuotes : List Char → List Char
  | [] => []
  | c :: cs => (if c = '"' then ['"', '"'] else [c]) ++ escapeQuotes cs

/-- `v == null ? empty : String(v)`. -/
def cellString : Option (List Char) → List Char
  | none => []
  | some s => s

/-- One cell of the produced text: quoted, with inner quotes doubled,
exactly when the cell contains a comma, a newline or a quote. -/
def renderCell (s : List Char) : List Char :=
  if needsQuote s then '"' :: (escapeQuotes s ++ ['"']) else s

/-- `r.map(renderCell).join(,)`. -/
def renderRow : List (List Char) → List Char
  | [] => []
  | [c] => renderCell c
  | c :: cs => renderCell c ++ ',' :: renderRow cs

/-- `arr.map(renderRow).join(newline)`. -/
def renderCsv : List (List (List Char)) → List Char
  | [] => []
  | [r] => renderRow r
  | r :: rs => renderRow r ++ '\n' :: renderCsv rs

/-- A result row, as the subset of a JavaScript object that `r[c]`
reaches: an association list from column name to cell value. -/
abbrev CsvRow := List (List Char × Option (List Char))

/-- The property read `r[c]` (an absent property reads as `undefined`,
which `v == null` also matches). -/
def rowGet (r : CsvRow) (c : List Char) : Option (List Char) :=
  match r.find? (fun p => p.1 == c) with
  | some p => p.2
  | none => none

/-- The grid `[cols, ...rows.map(r => cols.map(c => r[c]))]` after
stringification of each cell. -/
def csvGrid (cols : List (List Char)) (rows : List CsvRow) : List (List (List Char)) :=
  cols :: rows.map (fun r => cols.map (fun c => cellString (rowGet r c)))

/-- `exportCsv` (lines 275-289): the text handed to the `Blob`. -/
def exportCsv (cols : List (List Char)) (rows : List CsvRow) : List Char :=
  renderCsv (csvGrid cols rows)

/-! A standard comma-separated-values reader, used to state the
round-trip property: fields are separated by commas and records by
newlines; a field beginning with a quote runs to the matching closing
quote, with a doubled quote standing for a literal quote. -/

/-- Read the remainder of a quoted field (the opening quote already
consumed): returns the field text and the input after the closing
quote. -/
def readQuoted : List Char → List Char × List Char
  | [] => ([], [])
  | c :: cs =>
    if c = '"' then
      match cs with
      | [] => ([], [])
      | c2 :: cs2 =>
        if c2 = '"' then
          let p := readQuoted cs2
          ('"' :: p.1, p.2)
        else ([], cs)
    else
      let p := readQuoted cs
      (c :: p.1, p.2)

/-- Read an unquoted field: everything up to the next comma, newline or
end of input. -/
def readBare : List Char → List Char × List Char
  | [] => ([], [])
  | c :: cs =>
    if c = ',' || c = '\n' then ([], c :: cs)
    else
      let p := readBare cs
      (c :: p.1, p.2)

/-- Read one field. -/
def readField : List Char → List Char × List Char
  | [] => ([], [])
  | c :: cs => if c = '"' then readQuoted cs else readBare (c :: cs)

/-- Read the fields of one record; `fuel` bounds the number of fields. -/
def readRecordAux : Nat → List Char → List (List Char) × List Char
  | 0, cs => ([], cs)
  | fuel + 1, cs =>
    let p := readField cs
    match p.2 with
    | ',' :: rest =>
      let q := readRecordAux fuel rest
      (p.1 :: q.1, q.2)
    | _ => ([p.1], p.2)

/-- Read one record (a record has at most one more field than the input
has characters). -/
def readRecord (cs : List Char) : List (List Char) × List Char :=
  readRecordAux (cs.length + 1) cs

/-- Read all records; `fuel` bounds the number of records. -/
def readCsvAux : Nat → List Char → List (List (List Char))
  | 0, _ => []
  | fuel + 1, cs =>
    let p := readRecord cs
    match p.2 with
    | '\n' :: rest => p.1 :: readCsvAux fuel rest
    | _ => [p.1]

/-- The comma-separated-values reader. -/
def readCsv (cs : List Char) : List (List (List Char)) :=
  readCsvAux (cs.length + 1) cs

/-! ## Theorems -/

/-- Claim C1: the claim asks that every schema fetch carry a monotonically
increasing token and that a response be applied only when its token is the
latest, so that after selecting A then B the cached schema is B's even if
A's response arrives last.  The source carries no token: `fetchSchema`
applies every response with a bare `setSchema(data)`.  This theorem
evaluates the embedded code on the claim's own scenario: A is selected,
then B; B's fetch resolves first, then A's stale fetch resolves - and the
cached schema afterwards is A's, not B's, while B is still selected. -/
theorem C1_stale_schema_overwrites_selection :
    (selectTable (selectTable
        { selectedTable := none, schema := none, pendingSchemaFetches := [] }
        { id := "A", name := "A" })
        { id := "B", name := "B" }).pendingSchemaFetches = ["A", "B"] ∧
    (schemaFetchResolves (schemaFetchResolves (selectTable (selectTable
        { selectedTable := none, schema := none, pendingSchemaFetches := [] }
        { id := "A", name := "A" })
        { id := "B", name := "B" })
        1 [("b_col", "text")])
        0 [("a_col", "int")]).selectedTable = some { id := "B", name := "B" } ∧
    (schemaFetchResolves (schemaFetchResolves (selectTable (selectTable
        { selectedTable := none, schema := none, pendingSchemaFetches := [] }
        { id := "A", name := "A" })
        { id := "B", name := "B" })
        1 [("b_col", "text")])
        0 [("a_col", "int")]).schema = some [("a_col", "int")] ∧
    some [("a_col", "int")] ≠ some [("b_col", "text")] := by
  decide

/-- Claim C6, counterexample: the claim says a manual dismiss before
expiry cancels the scheduled automatic dismiss.  In the source `remove`
only filters the toast list and never calls `clearTimeout`, so after a
manual dismiss the 6000 ms timer is still pending. -/
theorem C6_counterexample :
    (removeToast (addToast { toasts := [], pendingTimers := [] }
        "a" "success" "Hello" none 0) "a").toasts = [] ∧
    (removeToast (addToast { toasts := [], pendingTimers := [] }
        "a" "success" "Hello" none 0) "a").pendingTimers = [("a", 6000)] := by
  decide

/-- Claim C6 (amended): `push` schedules an automatic dismiss 6000 ms
after creation, and a notification not manually dismissed is removed when
that timer fires.  A manual dismiss does not cancel the scheduled timer,
but dismissal is idempotent (removal filters by id), so the later firing
removes nothing further, never re-adds the notification, and a
notification dismissed early does not reappear at 6000 ms. -/
theorem C6_toast_lifecycle (s : ToastState) (id kind title : String)
    (message : Option String) (now : Nat) :
    (id, now + 6000) ∈ (addToast s id kind title message now).pendingTimers ∧
    (fireToastTimer (addToast s id kind title message now) id).toasts.all
      (fun t => t.id != id) = true ∧
    (removeToast s id).toasts.all (fun t => t.id != id) = true ∧
    (fireToastTimer (removeToast s id) id).toasts = (removeToast s id).toasts ∧
    removeToast (removeToast s id) id = removeToast s id := by
  refine ⟨by simp [addToast], ?_, ?_, ?_, ?_⟩
  · simp [fireToastTimer, removeToast, addToast, List.all_eq_true, List.mem_filter]
  · simp [removeToast, List.all_eq_true, List.mem_filter]
  · simp [fireToastTimer, removeToast, List.filter_filter]
  · simp [removeToast, List.filter_filter]

/-- Claim C7: a file whose MIME type is none of the accepted three and
whose lowercased name ends in none of `.csv`, `.xlsx`, `.xls` is rejected
immediately: `handleFiles` raises exactly the unsupported-file error toast
and issues no network request; and `sales.csv` is accepted and sent as
multipart form data under the field `file`. -/
theorem C7_upload_validation (f : JsFile)
    (h : (allowedMimes.contains f.mimeType
        || jsEndsWith (jsToLower f.name) ".csv"
        || jsEndsWith (jsToLower f.name) ".xlsx"
        || jsEndsWith (jsToLower f.name) ".xls") = false) :
    handleFiles [f] =
      { requestSent := false, formField := none,
        toastsAdded := [{ kind := "error", title := "Unsupported file",
                          message := some "Please upload CSV or Excel files." }] } ∧
    handleFiles [{ mimeType := "text/csv", name := "sales.csv" }] =
      { requestSent := true, formField := some "file", toastsAdded := [] } := by
  simp only [Bool.or_eq_false_iff] at h
  refine ⟨?_, by decide⟩
  simp [handleFiles, h.1.1.2, h.1.2, h.2]
  simpa using h.1.1.1

/-- Claim C7 witness: `data.txt` with MIME type `text/plain` is rejected
with no network activity; `sales.csv` is accepted under field `file`. -/
theorem C7_upload_validation_witness :
    handleFiles [{ mimeType := "text/plain", name := "data.txt" }] =
      { requestSent := false, formField := none,
        toastsAdded := [{ kind := "error", title := "Unsupported file",
                          message := some "Please upload CSV or Excel files." }] } ∧
    handleFiles [{ mimeType := "text/csv", name := "sales.csv" }] =
      { requestSent := true, formField := some "file", toastsAdded := [] } :=
  C7_upload_validation { mimeType := "text/plain", name := "data.txt" } (by decide)

/-- Claim C8, counterexample: the claim says every upload completing with
a 2xx response triggers a table-list refresh.  In the source
`onTablesRefresh` is called inside the `try` block after
`JSON.parse(xhr.responseText)`, so a 2xx response whose body does not
parse raises the `Unexpected response` error toast and triggers no
refresh. -/
theorem C8_counterexample :
    (uploadOnload 200 none).refreshCalled = false ∧
    (uploadOnload 200 none).toastsAdded =
      [{ kind := "error", title := "Unexpected response",
         message := some "Upload succeeded but response could not be parsed." }] := by
  decide

/-- Claim C8 (amended): an upload completing with 2xx whose body parses
triggers the table-list refresh and raises one success notification whose
message is built from `table_name` and `row_count`; a 2xx completion whose
body fails to parse raises one error notification and triggers no
refresh; and a non-2xx completion raises one `Upload failed` error
notification carrying the status and triggers no refresh, whatever its
body. -/
theorem C8_upload_completion (status : Nat) (res : UploadResponse)
    (h2 : 200 ≤ status ∧ status < 300) :
    (uploadOnload status (some res)).refreshCalled = true ∧
    (uploadOnload status (some res)).onUploadedCalled = true ∧
    (uploadOnload status (some res)).toastsAdded =
      [{ kind := "success", title := "Upload complete",
         message := some (uploadMessage res) }] ∧
    uploadMessage { table_name := some "sales", row_count := some 120 }
      = "sales • 120 rows" ∧
    (uploadOnload status none).refreshCalled = false ∧
    (uploadOnload status none).toastsAdded =
      [{ kind := "error", title := "Unexpected response",
         message := some "Upload succeeded but response could not be parsed." }] ∧
    (∀ st : Nat, ¬ (200 ≤ st ∧ st < 300) →
      ∀ parsed : Option UploadResponse,
        (uploadOnload st parsed).refreshCalled = false ∧
        (uploadOnload st parsed).toastsAdded =
          [{ kind := "error", title := "Upload failed",
             message := some ("Status " ++ toString st) }]) := by
  refine ⟨?_, ?_, ?_, by decide, ?_, ?_, ?_⟩
  · simp [uploadOnload, h2]
  · simp [uploadOnload, h2]
  · simp [uploadOnload, h2]
  · simp [uploadOnload, h2]
  · simp [uploadOnload, h2]
  · intro st hst parsed
    cases parsed <;> simp [uploadOnload, hst]

/-- Claim C8 witness: a 200 response `{table_name: sales, row_count: 120}`
refreshes the table list and raises the success notification
`sales • 120 rows`; an unparseable 200 body and non-2xx completions
refresh nothing. -/
theorem C8_upload_completion_witness :
    (uploadOnload 200 (some { table_name := some "sales", row_count := some 120 })).refreshCalled
      = true ∧
    (uploadOnload 200 (some { table_name := some "sales", row_count := some 120 })).onUploadedCalled
      = true ∧
    (uploadOnload 200 (some { table_name := some "sales", row_count := some 120 })).toastsAdded =
      [{ kind := "success", title := "Upload complete",
         message := some (uploadMessage { table_name := some "sales", row_count := some 120 }) }] ∧
    uploadMessage { table_name := some "sales", row_count := some 120 }
      = "sales • 120 rows" ∧
    (uploadOnload 200 none).refreshCalled = false ∧
    (uploadOnload 200 none).toastsAdded =
      [{ kind := "error", title := "Unexpected response",
         message := some "Upload succeeded but response could not be parsed." }] ∧
    (∀ st : Nat, ¬ (200 ≤ st ∧ st < 300) →
      ∀ parsed : Option UploadResponse,
        (uploadOnload st parsed).refreshCalled = false ∧
        (uploadOnload st parsed).toastsAdded =
          [{ kind := "error", title := "Upload failed",
             message := some ("Status " ++ toString st) }]) :=
  C8_upload_completion 200 { table_name := some "sales", row_count := some 120 } (by decide)

/-- Claim C9: a confirmed deletion answered with 2xx triggers the
table-list refresh, clears both selection and cached schema exactly when
the deleted table was the currently selected one, and otherwise leaves
selection and schema untouched. -/
theorem C9_delete_success (s : DeleteState) (tbl : TableRef) :
    (deleteTable true s tbl .ok).requestSent = true ∧
    (deleteTable true s tbl .ok).refreshCalled = true ∧
    (deleteTable true s tbl .ok).state.selectedTable =
      (if selectionMatches s.selectedTable tbl then none else s.selectedTable) ∧
    (deleteTable true s tbl .ok).state.schema =
      (if selectionMatches s.selectedTable tbl then none else s.schema) := by
  by_cases h : selectionMatches s.selectedTable tbl <;>
    simp [deleteTable, h]

/-- Claim C10: the history initializer never throws: with no stored
`query_history` value the falsy fallback parses the empty-array literal,
and a stored value that fails to parse is caught - in both cases the
history starts as the empty array. -/
theorem C10_history_init (parse : String → Option Json)
    (hp : parse "[]" = some (Json.arr [])) (s : String)
    (hs : parse s = none) :
    initHistory none parse = Json.arr [] ∧
    initHistory (some "") parse = Json.arr [] ∧
    initHistory (some s) parse = Json.arr [] := by
  refine ⟨by simp [initHistory, hp], by simp [initHistory, hp], ?_⟩
  by_cases h0 : s = "" <;> simp [initHistory, h0, hp, hs]

/-- Claim C10 witness: a concrete `JSON.parse` oracle that accepts only
the empty-array literal, applied to an absent value and to a corrupt
stored value. -/
theorem C10_history_init_witness :
    initHistory none (fun t => if t = "[]" then some (Json.arr []) else none)
      = Json.arr [] ∧
    initHistory (some "")
      (fun t => if t = "[]" then some (Json.arr []) else none) = Json.arr [] ∧
    initHistory (some "not json")
      (fun t => if t = "[]" then some (Json.arr []) else none) = Json.arr [] :=
  C10_history_init (fun t => if t = "[]" then some (Json.arr []) else none)
    (by simp) "not json" (by simp)

/-- Claim C2, counterexample: the claim says that after a failed run the
QueryResult equals the one current immediately before the run began.  The
source executes `setResult(null)` before issuing the request and the catch
branch never restores it, so a failed run leaves the result empty even
when a previous result existed. -/
theorem C2_counterexample :
    (runQuery
      { query := "q", running := false, result := some { raw := "prev" },
        history := [], store := [], toasts := [] }
      (.httpError 500)).state.result = none ∧
    ({ query := "q", running := false, result := some { raw := "prev" },
       history := [], store := [], toasts := [] } : QueryState).result
      = some { raw := "prev" } ∧
    (none : Option QueryData) ≠ some { raw := "prev" } := by
  decide

/-- Claim C2 (amended): a failed run (non-2xx or transport error) leaves
the QueryResult empty - `runQuery` clears it to null before issuing the
request and a failure never restores it - and raises exactly one failure
notification carrying the status or the error detail; history, store and
query text are untouched. -/
theorem C2_failed_run_clears_result (s : QueryState)
    (h : ¬ jsTrim s.query = "") (status : Nat) (m : String) :
    (runQuery s (.httpError status)).state.result = none ∧
    (runQuery s (.httpError status)).state.toasts = s.toasts ++
      [{ kind := "error", title := "Query failed",
         message := some ("Status " ++ toString status) }] ∧
    (runQuery s (.networkError m)).state.result = none ∧
    (runQuery s (.networkError m)).state.toasts = s.toasts ++
      [{ kind := "error", title := "Query failed", message := some m }] ∧
    (runQuery s (.httpError status)).state.history = s.history ∧
    (runQuery s (.httpError status)).state.store = s.store ∧
    (runQuery s (.httpError status)).state.query = s.query := by
  simp [runQuery, h]

/-- Claim C2 witness: a failed run with status 500 from a state holding a
previous result. -/
theorem C2_failed_run_clears_result_witness :
    (runQuery
      { query := "q", running := true, result := some { raw := "prev" },
        history := ["h"], store := [("query_history", "x")], toasts := [] }
      (.httpError 500)).state.result = none ∧
    (runQuery
      { query := "q", running := true, result := some { raw := "prev" },
        history := ["h"], store := [("query_history", "x")], toasts := [] }
      (.httpError 500)).state.toasts = [] ++
      [{ kind := "error", title := "Query failed",
         message := some ("Status " ++ toString 500) }] ∧
    (runQuery
      { query := "q", running := true, result := some { raw := "prev" },
        history := ["h"], store := [("query_history", "x")], toasts := [] }
      (.networkError "Failed to fetch")).state.result = none ∧
    (runQuery
      { query := "q", running := true, result := some { raw := "prev" },
        history := ["h"], store := [("query_history", "x")], toasts := [] }
      (.networkError "Failed to fetch")).state.toasts = [] ++
      [{ kind := "error", title := "Query failed",
         message := some "Failed to fetch" }] ∧
    (runQuery
      { query := "q", running := true, result := some { raw := "prev" },
        history := ["h"], store := [("query_history", "x")], toasts := [] }
      (.httpError 500)).state.history = ["h"] ∧
    (runQuery
      { query := "q", running := true, result := some { raw := "prev" },
        history := ["h"], store := [("query_history", "x")], toasts := [] }
      (.httpError 500)).state.store = [("query_history", "x")] ∧
    (runQuery
      { query := "q", running := true, result := some { raw := "prev" },
        history := ["h"], store := [("query_history", "x")], toasts := [] }
      (.httpError 500)).state.query = "q" :=
  C2_failed_run_clears_result
    { query := "q", running := true, result := some { raw := "prev" },
      history := ["h"], store := [("query_history", "x")], toasts := [] }
    (by decide) 500 "Failed to fetch"

/-- Claim C3, counterexample: the claim says invoking the query run is a
no-op whenever a run is already in the running state, including submission
via the Enter key.  `runQuery` only checks the trimmed text, and
`handleKeySubmit` calls it with no further guard, so an Enter keypress
while `running` is true does issue a request and does change state. -/
theorem C3_counterexample :
    (handleKeySubmit { key := "Enter", shiftKey := false }
      { query := "x", running := true, result := none,
        history := [], store := [], toasts := [] }
      (.ok { raw := "d" })).requestSent = true ∧
    (handleKeySubmit { key := "Enter", shiftKey := false }
      { query := "x", running := true, result := none,
        history := [], store := [], toasts := [] }
      (.ok { raw := "d" })).state ≠
      { query := "x", running := true, result := none,
        history := [], store := [], toasts := [] } := by
  decide

/-- Claim C3 (amended): the run operation is a no-op (no request, no state
change) exactly when the trimmed query text is empty.  The run button is
disabled while a run is in progress, so the button path cannot overlap
runs, but `runQuery` itself never checks the running flag: an Enter-key
submission issues a request whenever the trimmed text is nonempty, even
while a run is already in progress. -/
theorem C3_empty_noop_enter_bypasses_running (s : QueryState)
    (outcome : QueryOutcome) (e : KeyEvent)
    (hk : e.key = "Enter") (hs : e.shiftKey = false) :
    (jsTrim s.query = "" → handleKeySubmit e s outcome =
      { state := s, requestSent := false }) ∧
    (handleKeySubmit e s outcome).requestSent = !(jsTrim s.query == "") ∧
    runButtonEnabled true s.query = false := by
  have he : handleKeySubmit e s outcome = runQuery s outcome := by
    simp [handleKeySubmit, hk, hs]
  refine ⟨fun h0 => by simp [he, runQuery, h0], ?_, by simp [runButtonEnabled]⟩
  rw [he]
  by_cases h0 : jsTrim s.query = ""
  · simp [runQuery, h0]
  · cases outcome <;> simp [runQuery, h0]

/-- Claim C3 witness: Enter without Shift, in a state where a run is
already in progress and the query text is nonempty. -/
theorem C3_empty_noop_enter_bypasses_running_witness :
    (jsTrim "x" = "" → handleKeySubmit { key := "Enter", shiftKey := false }
      { query := "x", running := true, result := none,
        history := [], store := [], toasts := [] } (.ok { raw := "d" }) =
      { state := { query := "x", running := true, result := none,
                   history := [], store := [], toasts := [] },
        requestSent := false }) ∧
    (handleKeySubmit { key := "Enter", shiftKey := false }
      { query := "x", running := true, result := none,
        history := [], store := [], toasts := [] }
      (.ok { raw := "d" })).requestSent = !(jsTrim "x" == "") ∧
    runButtonEnabled true "x" = false :=
  C3_empty_noop_enter_bypasses_running
    { query := "x", running := true, result := none,
      history := [], store := [], toasts := [] }
    (.ok { raw := "d" }) { key := "Enter", shiftKey := false } rfl rfl

/-! ### History lemmas (claim C4) -/

theorem not_mem_filter_ne (l : List String) (t : String) :
    t ∉ l.filter (fun q => q != t) := by
  intro h
  have := (List.mem_filter.mp h).2
  simp at this

theorem filter_ne_of_not_mem {l : List String} {t : String} (h : t ∉ l) :
    l.filter (fun q => q != t) = l := by
  rw [List.filter_eq_self]
  intro a ha
  simp only [bne_iff_ne, ne_eq, decide_eq_true_eq]
  intro hat
  exact h (hat ▸ ha)

theorem length_filter_ne_succ {l : List String} {t : String}
    (hn : l.Nodup) (hm : t ∈ l) :
    (l.filter (fun q => q != t)).length + 1 = l.length := by
  induction l with
  | nil => cases hm
  | cons a l ih =>
    have hal : a ∉ l := (List.nodup_cons.mp hn).1
    have hnl : l.Nodup := (List.nodup_cons.mp hn).2
    rcases List.mem_cons.mp hm with rfl | hml
    · have : l.filter (fun q => q != t) = l := filter_ne_of_not_mem hal
      simp [List.filter_cons, this]
    · have hat : (a != t) = true := by
        simp only [bne_iff_ne, ne_eq, decide_eq_true_eq]
        intro h
        exact hal (h ▸ hml)
      have := ih hnl hml
      simp only [List.filter_cons, hat, if_true, List.length_cons]
      omega

theorem insertHistory_head (t : String) (l : List String) :
    (insertHistory t l).head? = some t := by
  simp [insertHistory, List.take_succ_cons]

theorem insertHistory_length_le (t : String) (l : List String) :
    (insertHistory t l).length ≤ 10 := by
  simp [insertHistory, List.length_take]

theorem insertHistory_nodup (t : String) {l : List String} (hn : l.Nodup) :
    (insertHistory t l).Nodup := by
  have h1 : (t :: l.filter (fun q => q != t)).Nodup :=
    List.nodup_cons.mpr ⟨not_mem_filter_ne l t, hn.filter _⟩
  exact h1.sublist (List.take_sublist _ _)

theorem insertHistory_of_mem {t : String} {l : List String}
    (hn : l.Nodup) (hl : l.length ≤ 10) (hm : t ∈ l) :
    insertHistory t l = t :: l.filter (fun q => q != t) ∧
    (insertHistory t l).length = l.length := by
  have hlen := length_filter_ne_succ hn hm
  have hle : (t :: l.filter (fun q => q != t)).length ≤ 10 := by
    simp only [List.length_cons]
    omega
  constructor
  · rw [insertHistory, List.take_of_length_le hle]
  · rw [insertHistory, List.take_of_length_le hle, List.length_cons]
    omega

theorem insertHistory_evict {t : String} {l : List String}
    (hm : t ∉ l) (hl : l.length = 10) :
    insertHistory t l = t :: l.dropLast := by
  rw [insertHistory, filter_ne_of_not_mem hm, List.take_succ_cons,
    List.dropLast_eq_take, hl]

theorem getItem_setItem (st : Store) (k v : String) :
    getItem (setItem st k v) k = some v := by
  simp [getItem, setItem, List.find?_cons_of_pos]

/-- Claim C4: a successful run inserts the trimmed query text into the
history: the result has the new text first, no duplicate texts, length at
most 10; a text already present moves to the front without growing the
list; an eleventh distinct text evicts the oldest entry; and the new
sequence is persisted in the store under `query_history`. -/
theorem C4_history_dedup_cap (s : QueryState) (d : QueryData)
    (hq : ¬ jsTrim s.query = "") (hn : s.history.Nodup)
    (hl : s.history.length ≤ 10) :
    (runQuery s (.ok d)).state.history = insertHistory (jsTrim s.query) s.history ∧
    (insertHistory (jsTrim s.query) s.history).Nodup ∧
    (insertHistory (jsTrim s.query) s.history).length ≤ 10 ∧
    (insertHistory (jsTrim s.query) s.history).head? = some (jsTrim s.query) ∧
    (jsTrim s.query ∈ s.history →
      (insertHistory (jsTrim s.query) s.history).length = s.history.length) ∧
    (jsTrim s.query ∉ s.history → s.history.length = 10 →
      insertHistory (jsTrim s.query) s.history
        = jsTrim s.query :: s.history.dropLast) ∧
    getItem (runQuery s (.ok d)).state.store "query_history" =
      some (serializeHistory (insertHistory (jsTrim s.query) s.history)) := by
  refine ⟨by simp [runQuery, hq], insertHistory_nodup _ hn,
    insertHistory_length_le _ _, insertHistory_head _ _,
    fun hm => (insertHistory_of_mem hn hl hm).2,
    fun hm h10 => insertHistory_evict hm h10, ?_⟩
  simp only [runQuery, hq, if_false]
  exact getItem_setItem _ _ _

/-- Claim C4 witness: running the query ` b ` (trimming to `b`, already in
the two-entry history) promotes it to the front without duplication and
persists the result. -/
theorem C4_history_dedup_cap_witness :
    (runQuery
      { query := " b ", running := false, result := none,
        history := ["a", "b"], store := [], toasts := [] }
      (.ok { raw := "d" })).state.history
        = insertHistory (jsTrim " b ") ["a", "b"] ∧
    (insertHistory (jsTrim " b ") ["a", "b"]).Nodup ∧
    (insertHistory (jsTrim " b ") ["a", "b"]).length ≤ 10 ∧
    (insertHistory (jsTrim " b ") ["a", "b"]).head? = some (jsTrim " b ") ∧
    (jsTrim " b " ∈ ["a", "b"] →
      (insertHistory (jsTrim " b ") ["a", "b"]).length = (["a", "b"] : List String).length) ∧
    (jsTrim " b " ∉ ["a", "b"] → (["a", "b"] : List String).length = 10 →
      insertHistory (jsTrim " b ") ["a", "b"]
        = jsTrim " b " :: (["a", "b"] : List String).dropLast) ∧
    getItem (runQuery
      { query := " b ", running := false, result := none,
        history := ["a", "b"], store := [], toasts := [] }
      (.ok { raw := "d" })).state.store "query_history" =
      some (serializeHistory (insertHistory (jsTrim " b ") ["a", "b"])) :=
  C4_history_dedup_cap
    { query := " b ", running := false, result := none,
      history := ["a", "b"], store := [], toasts := [] }
    { raw := "d" } (by decide) (by decide) (by decide)

/-! ### CSV round-trip lemmas (claim C5) -/

theorem renderRow_single (c : List Char) : renderRow [c] = renderCell c := rfl

theorem renderRow_cons (c d : List Char) (cs : List (List Char)) :
    renderRow (c :: d :: cs) = renderCell c ++ ',' :: renderRow (d :: cs) := rfl

theorem renderCsv_single (r : List (List Char)) : renderCsv [r] = renderRow r := rfl

theorem renderCsv_cons (r q : List (List Char)) (g : List (List (List Char))) :
    renderCsv (r :: q :: g) = renderRow r ++ '\n' :: renderCsv (q :: g) := rfl

theorem readQuoted_escape (s rest : List Char)
    (h : ∀ c cs, rest = c :: cs → c ≠ '"') :
    readQuoted (escapeQuotes s ++ '"' :: rest) = (s, rest) := by
  induction s with
  | nil =>
    cases rest with
    | nil =>
      simp only [escapeQuotes, List.nil_append]
      rw [readQuoted.eq_def]
      simp
    | cons c cs =>
      have hc : c ≠ '"' := h c cs rfl
      simp only [escapeQuotes, List.nil_append]
      rw [readQuoted.eq_def]
      simp [hc]
  | cons a s ih =>
    by_cases ha : a = '"'
    · subst ha
      simp only [escapeQuotes, if_pos rfl, List.cons_append, List.append_assoc]
      rw [readQuoted.eq_def]
      simp [ih]
    · simp only [escapeQuotes, if_neg ha, List.cons_append, List.singleton_append]
      rw [readQuoted.eq_def]
      simp [ha, ih]

theorem readBare_plain (s rest : List Char)
    (hs : needsQuote s = false)
    (hrest : rest = [] ∨ ∃ c cs, rest = c :: cs ∧ (c = ',' ∨ c = '\n')) :
    readBare (s ++ rest) = (s, rest) := by
  induction s with
  | nil =>
    rcases hrest with rfl | ⟨c, cs, rfl, hc⟩
    · rw [List.nil_append, readBare.eq_def]
    · rw [List.nil_append, readBare.eq_def]
      rcases hc with rfl | rfl <;> simp
  | cons a s ih =>
    simp only [needsQuote, List.any_cons, Bool.or_eq_false_iff] at hs
    have ha1 : a ≠ ',' := by
      intro h
      subst h
      simp at hs
    have ha2 : a ≠ '\n' := by
      intro h
      subst h
      simp at hs
    have hns : needsQuote s = false := by
      simp [needsQuote, hs.2]
    rw [List.cons_append, readBare.eq_def]
    simp [ha1, ha2, ih hns]

theorem readField_render (s rest : List Char)
    (hrest : rest = [] ∨ ∃ c cs, rest = c :: cs ∧ (c = ',' ∨ c = '\n')) :
    readField (renderCell s ++ rest) = (s, rest) := by
  by_cases hq : needsQuote s
  · have hrq : ∀ c cs, rest = c :: cs → c ≠ '"' := by
      rcases hrest with rfl | ⟨c, cs, rfl, hc⟩
      · intro c cs h
        cases h
      · intro c2 cs2 h
        injection h with h1 h2
        subst h1
        rcases hc with rfl | rfl <;> decide
    have hsplit : renderCell s ++ rest = '"' :: (escapeQuotes s ++ '"' :: rest) := by
      simp [renderCell, hq]
    rw [hsplit, readField.eq_def]
    simp [readQuoted_escape s rest hrq]
  · have hcell : renderCell s = s := by simp [renderCell, hq]
    rw [hcell]
    cases s with
    | nil =>
      simp only [List.nil_append]
      rcases hrest with rfl | ⟨c, cs, rfl, hc⟩
      · rw [readField.eq_def]
      · have hcq : c ≠ '"' := by rcases hc with rfl | rfl <;> decide
        rw [readField.eq_def]
        simp only [hcq, if_false]
        rw [readBare.eq_def]
        rcases hc with rfl | rfl <;> simp
    | cons a s' =>
      have ha : a ≠ '"' := by
        intro h
        subst h
        simp [needsQuote] at hq
      have hq2 : needsQuote (a :: s') = false := by
        simpa using hq
      have hbare := readBare_plain (a :: s') rest hq2 hrest
      rw [List.cons_append] at hbare
      rw [List.cons_append, readField.eq_def]
      simp [ha, hbare]

theorem readRecordAux_render (r : List (List Char)) (rest : List Char) (fuel : Nat)
    (hr : r ≠ []) (hf : r.length ≤ fuel)
    (hrest : rest = [] ∨ ∃ cs, rest = '\n' :: cs) :
    readRecordAux fuel (renderRow r ++ rest) = (r, rest) := by
  induction r generalizing fuel with
  | nil => exact absurd rfl hr
  | cons f r' ih =>
    cases fuel with
    | zero => simp at hf
    | succ fuel =>
      cases r' with
      | nil =>
        have hsep : rest = [] ∨ ∃ c cs, rest = c :: cs ∧ (c = ',' ∨ c = '\n') := by
          rcases hrest with rfl | ⟨cs, rfl⟩
          · exact Or.inl rfl
          · exact Or.inr ⟨'\n', cs, rfl, Or.inr rfl⟩
        have hfld := readField_render f rest hsep
        rw [readRecordAux.eq_def, renderRow_single]
        rcases hrest with rfl | ⟨cs, rfl⟩
        · rw [List.append_nil] at hfld
          rw [List.append_nil]
          simp [hfld]
        · simp [hfld]
      | cons g r'' =>
        have hsplit : renderRow (f :: g :: r'') ++ rest
            = renderCell f ++ (',' :: (renderRow (g :: r'') ++ rest)) := by
          rw [renderRow_cons]
          simp
        have hfld := readField_render f (',' :: (renderRow (g :: r'') ++ rest))
          (Or.inr ⟨',', _, rfl, Or.inl rfl⟩)
        have hlen : (g :: r'').length ≤ fuel := by
          simp only [List.length_cons] at hf ⊢
          omega
        have hih := ih fuel (List.cons_ne_nil _ _) hlen
        rw [hsplit, readRecordAux.eq_def]
        simp [hfld, hih]

theorem renderRow_length (r : List (List Char)) :
    r.length ≤ (renderRow r).length + 1 := by
  induction r with
  | nil => simp
  | cons f r' ih =>
    cases r' with
    | nil => simp
    | cons g r'' =>
      rw [renderRow_cons]
      simp only [List.length_append, List.length_cons] at ih ⊢
      omega

theorem readRecord_render (r : List (List Char)) (rest : List Char)
    (hr : r ≠ []) (hrest : rest = [] ∨ ∃ cs, rest = '\n' :: cs) :
    readRecord (renderRow r ++ rest) = (r, rest) := by
  apply readRecordAux_render r rest _ hr _ hrest
  have h1 := renderRow_length r
  simp only [List.length_append]
  omega

theorem readCsvAux_render (g : List (List (List Char))) (fuel : Nat)
    (hg : g ≠ []) (hrows : ∀ r ∈ g, r ≠ []) (hf : g.length ≤ fuel) :
    readCsvAux fuel (renderCsv g) = g := by
  induction g generalizing fuel with
  | nil => exact absurd rfl hg
  | cons r g' ih =>
    cases fuel with
    | zero => simp at hf
    | succ fuel =>
      cases g' with
      | nil =>
        have hrec : readRecord (renderRow r ++ []) = (r, []) :=
          readRecord_render r [] (hrows r (by simp)) (Or.inl rfl)
        rw [List.append_nil] at hrec
        rw [readCsvAux.eq_def, renderCsv_single]
        simp [hrec]
      | cons q g'' =>
        have hsplit : renderCsv (r :: q :: g'')
            = renderRow r ++ ('\n' :: renderCsv (q :: g'')) := renderCsv_cons r q g''
        have hrec := readRecord_render r ('\n' :: renderCsv (q :: g''))
          (hrows r (by simp)) (Or.inr ⟨_, rfl⟩)
        have hlen : (q :: g'').length ≤ fuel := by
          simp only [List.length_cons] at hf ⊢
          omega
        have hih := ih fuel (List.cons_ne_nil _ _)
          (fun r2 hr2 => hrows r2 (List.mem_cons_of_mem r hr2)) hlen
        rw [hsplit, readCsvAux.eq_def]
        simp [hrec, hih]

theorem renderCsv_length (g : List (List (List Char))) :
    g.length ≤ (renderCsv g).length + 1 := by
  induction g with
  | nil => simp
  | cons r g' ih =>
    cases g' with
    | nil => simp
    | cons q g'' =>
      rw [renderCsv_cons]
      simp only [List.length_append, List.length_cons] at ih ⊢
      omega

theorem readCsv_render (g : List (List (List Char)))
    (hg : g ≠ []) (hrows : ∀ r ∈ g, r ≠ []) :
    readCsv (renderCsv g) = g := by
  apply readCsvAux_render g _ hg hrows
  have := renderCsv_length g
  omega

/-- Claim C5: the CSV export stringifies each cell (absent or null cells
to the empty string), quotes exactly the cells containing a comma, a
quote or a newline (doubling inner quotes), joins cells with commas and
rows with newlines with the header row first - and reading the produced
text back with a standard comma-separated-values reader reconstructs the
grid of original cell strings exactly. -/
theorem C5_csv_roundtrip (cols : List (List Char)) (rows : List CsvRow)
    (hc : cols ≠ []) :
    readCsv (exportCsv cols rows) = csvGrid cols rows ∧
    (csvGrid cols rows).head? = some cols := by
  constructor
  · apply readCsv_render
    · simp [csvGrid]
    · intro r hr
      simp only [csvGrid, List.mem_cons, List.mem_map] at hr
      rcases hr with rfl | ⟨row, _, rfl⟩
      · exact hc
      · simpa using hc
  · simp [csvGrid]

/-- Claim C5 witness: a single column `name` and the row
`{name: Doe, John}`; the export quotes the cell and the reader
reconstructs the grid, and the produced text is exactly
`name`, a newline, and the quoted cell. -/
theorem C5_csv_roundtrip_witness :
    readCsv (exportCsv ["name".data] [[("name".data, some "Doe, John".data)]])
      = csvGrid ["name".data] [[("name".data, some "Doe, John".data)]] ∧
    (csvGrid ["name".data] [[("name".data, some "Doe, John".data)]]).head?
      = some ["name".data] :=
  C5_csv_roundtrip ["name".data] [[("name".data, some "Doe, John".data)]]
    (by decide)

end NLQS
